import Mathlib

/-!
Verification development for the sqlset library (Go).

Shallow embedding conventions:
- Go strings are byte/character sequences, modelled as `List Char` (`GoStr`);
  identifiers and file lines in the claims are ASCII, where Go byte order and
  Lean character order agree.
- Go maps with string keys are modelled as association lists with unique keys;
  a nil map is `Option.none`, a populated map is `Option.some list`.
- Go error values are a small inductive mirroring `errors.New` (a fresh base
  error; all base messages in this code base are distinct, so message equality
  coincides with Go pointer identity) and `fmt.Errorf` with `%w` (wrapping).
  `errorIs` mirrors `errors.Is` (unwrap chain).
- Fallible functions return `Except GoError α`; `GetQueryIDs` returns the Go
  pair `([]string, error)` to preserve the nil-slice / empty-slice distinction.
- `encoding/json` is an external collaborator: `parse`/`parseMeta` are
  parameterized by a decoder `GoStr → Except GoStr QuerySetMeta` standing for
  `json.Unmarshal` into a `QuerySetMeta` (absent JSON fields decode to `""`).
-/

abbrev GoStr := List Char

deriving instance DecidableEq for Except

def gs (s : String) : GoStr := s.toList

def natStr (n : Nat) : GoStr := (toString n).toList

/-- Go `strings.TrimSpace` (surrounding whitespace removed). -/
def goTrimSpace (s : GoStr) : GoStr :=
  ((s.dropWhile Char.isWhitespace).reverse.dropWhile Char.isWhitespace).reverse

/-- Go `strings.CutPrefix`. -/
def goCutPrefix (s p : GoStr) : GoStr × Bool :=
  if p.isPrefixOf s then (s.drop p.length, true) else (s, false)

/-- Go `strings.HasPrefix`. -/
def goHasPrefix (s p : GoStr) : Bool := p.isPrefixOf s

/-- Go `strings.TrimSuffix`. -/
def goTrimSuffix (s suf : GoStr) : GoStr :=
  if suf.isSuffixOf s then s.take (s.length - suf.length) else s

/-- Go `strings.Cut(s, sep)` for the one-character separator `"."` used by
`SQLSet.Get`: split at the first occurrence of `sep`. -/
def goCutChar : GoStr → Char → GoStr × GoStr × Bool
  | [], _ => ([], [], false)
  | c :: t, sep =>
    if c = sep then ([], t, true)
    else
      let r := goCutChar t sep
      (c :: r.1, r.2.1, r.2.2)

/-- Go error values: `new` is `errors.New` / `fmt.Errorf` without `%w`
(a fresh error; base messages are pairwise distinct in this code base),
`wrap` is `fmt.Errorf` with a `%w` verb. -/
inductive GoError where
  | new (msg : GoStr)
  | wrap (msg : GoStr) (inner : GoError)
deriving DecidableEq, Repr

/-- Go `errors.Is`: equality with the target, or unwrap and retry. -/
def errorIs : GoError → GoError → Bool
  | .new m, t => decide (GoError.new m = t)
  | .wrap m inner, t => decide (GoError.wrap m inner = t) || errorIs inner t

def ErrEmpty : GoError := .new (gs "empty")

def ErrArgumentEmpty : GoError := .wrap (gs "argument") ErrEmpty

def ErrQuerySetsEmpty : GoError := .wrap (gs "query sets") ErrEmpty

def ErrQuerySetEmpty : GoError := .wrap (gs "query set") ErrEmpty

def ErrNotFound : GoError := .new (gs "not found")

def ErrQuerySetNotFound : GoError := .wrap (gs "query set") ErrNotFound

def ErrQueryNotFound : GoError := .wrap (gs "query") ErrNotFound

def ErrInvalidSyntax : GoError := .new (gs "invalid SQLSetList syntax")

def ErrMaxLineLenExceeded : GoError := .new (gs "line too long, possible line corruption")

def ErrInvalidArgCount : GoError := .new (gs "invalid number of arguments")

def ErrRequiredArgMissing : GoError := .new (gs "required argument not specified")

/-- Association-list lookup, the model of Go map indexing `m[k]`. -/
def lookupA {β : Type} : List (GoStr × β) → GoStr → Option β
  | [], _ => none
  | (k, v) :: t, id => if k = id then some v else lookupA t id

/-- Association-list update, the model of Go map assignment `m[k] = v`. -/
def updateA {β : Type} : List (GoStr × β) → GoStr → β → List (GoStr × β)
  | [], k, v => [(k, v)]
  | (k0, v0) :: t, k, v => if k0 = k then (k, v) :: t else (k0, v0) :: updateA t k v

structure QuerySetMeta where
  ID : GoStr
  Name : GoStr
  Description : GoStr
deriving DecidableEq, Repr

structure QuerySet where
  meta : QuerySetMeta := ⟨[], [], []⟩
  queries : Option (List (GoStr × GoStr)) := none
deriving DecidableEq, Repr

/-- Go zero value `QuerySet{}`. -/
def zeroQuerySet : QuerySet := {}

def QuerySet.registerQuery (qs : QuerySet) (id q : GoStr) : QuerySet :=
  match qs.queries with
  | none => { qs with queries := some [(id, q)] }
  | some l => { qs with queries := some (updateA l id q) }

def QuerySet.findQuery (qs : QuerySet) (id : GoStr) : Except GoError GoStr :=
  match qs.queries with
  | none => .error (.wrap qs.meta.ID ErrQuerySetEmpty)
  | some l =>
    match lookupA l id with
    | none => .error (.wrap id ErrQueryNotFound)
    | some q => .ok q

structure SQLSet where
  sets : Option (List (GoStr × QuerySet)) := none
deriving DecidableEq, Repr

def SQLSet.registerQuerySet (s : SQLSet) (setID : GoStr) (qs : QuerySet) : SQLSet :=
  match s.sets with
  | none => { sets := some [(setID, qs)] }
  | some l => { sets := some (updateA l setID qs) }

def SQLSet.findQuery (s : SQLSet) (ids : List GoStr) : Except GoError GoStr :=
  match s.sets with
  | none => .error ErrQuerySetsEmpty
  | some sets =>
    match ids with
    | [queryID] =>
      if sets.length > 1 then
        .error (.new (gs "query set not specified"))
      else
        let qs :=
          match sets with
          | [] => zeroQuerySet
          | (_, v) :: _ => v
        qs.findQuery queryID
    | [setID, queryID] =>
      match lookupA sets setID with
      | none => .error (.wrap setID ErrQuerySetNotFound)
      | some qs => qs.findQuery queryID
    | _ => .error (.new (gs "invalid number of arguments: " ++ natStr ids.length))

/-- Index of the first empty identifier, mirroring the validation loop at the
top of `SQLSet.Get`. -/
def findEmptyArg : Nat → List GoStr → Option Nat
  | _, [] => none
  | i, a :: t => if a = [] then some i else findEmptyArg (i + 1) t

def SQLSet.Get (s : SQLSet) (ids : List GoStr) : Except GoError GoStr :=
  match findEmptyArg 0 ids with
  | some i => .error (.new (gs "empty argument: " ++ natStr i))
  | none =>
    if ids.length = 0 ∨ ids.length > 2 then
      .error (.new (gs "invalid number of arguments: " ++ natStr ids.length))
    else
      let ids2 :=
        match ids with
        | [x] =>
          match goCutChar x '.' with
          | (left, right, true) => [left, right]
          | (_, _, false) => ids
        | _ => ids
      s.findQuery ids2

/-- Go `sort.Strings`: ascending lexicographic byte order. -/
def sortStrings (l : List GoStr) : List GoStr := List.insertionSort (· ≤ ·) l

/-- Result is the Go pair `([]string, error)`: `(none, some e)` is
`return nil, err`, `(some ids, none)` is a successful non-nil slice. -/
def SQLSet.GetQueryIDs (s : SQLSet) (setID : GoStr) : Option (List GoStr) × Option GoError :=
  match s.sets with
  | none => (none, some (.wrap setID ErrQuerySetNotFound))
  | some sets =>
    match lookupA sets setID with
    | none => (none, some (.wrap setID ErrQuerySetNotFound))
    | some qs =>
      match qs.queries with
      | none => (some [], none)
      | some l => (some (sortStrings (l.map Prod.fst)), none)

def maxCapacity : Nat := 1024

def tokenPrefix : GoStr := gs "--"

def tokenKeySep : GoStr := gs ":"

def tokenComment : GoStr := tokenPrefix

def tokenSQL : GoStr := gs "SQL"

def tokenMeta : GoStr := gs "META"

def tokenEnd : GoStr := gs "end"

def lineEnding : GoStr := gs "\r\n"

/-- Line classifier of the parser. Token `[]` means the line is not a
directive (content if a block is open); precedence is statement-open,
then metadata-open, then block-close, then plain comment. -/
def detectToken (line : GoStr) : Except GoError (GoStr × GoStr) :=
  match goCutPrefix line tokenPrefix with
  | (_, false) => .ok ([], [])
  | (rest, true) =>
    match goCutPrefix rest (tokenSQL ++ tokenKeySep) with
    | (key0, true) =>
      let key := goTrimSpace key0
      if key = [] then
        .error (.wrap (gs "no SQL set query key given") ErrInvalidSyntax)
      else
        .ok (tokenSQL, key)
    | (_, false) =>
      if goHasPrefix rest tokenMeta then .ok (tokenMeta, [])
      else if goHasPrefix rest tokenEnd then .ok (tokenEnd, [])
      else .ok (tokenComment, [])

structure ParserToken where
  ttype : GoStr
  tkey : GoStr
  tcontent : GoStr
deriving DecidableEq, Repr

/-- Loop state of `parse`: the currently open block (if any), the stashed raw
metadata payload (if already committed), the statements registered so far and
the number of lines consumed. -/
structure PState where
  openedToken : Option ParserToken := none
  metaBuf : Option GoStr := none
  qs : QuerySet := {}
  lineN : Nat := 0
deriving DecidableEq, Repr

def lineMsg (n : Nat) : GoStr := gs "line " ++ natStr n

/-- One iteration of the scanner loop in `parse`. A raw line at or above the
scanner buffer capacity makes `bufio.Scanner` stop with `ErrTooLong`, surfaced
as `ErrMaxLineLenExceeded` for line `lineN+1`; otherwise the line is trimmed,
classified and dispatched exactly as the Go `switch` does. -/
def parseStep (st0 : PState) (rawLine : GoStr) : Except GoError PState :=
  if maxCapacity ≤ rawLine.length then
    .error (.wrap (lineMsg (st0.lineN + 1)) ErrMaxLineLenExceeded)
  else
    let n := st0.lineN + 1
    let st : PState := { st0 with lineN := n }
    let line := goTrimSpace rawLine
    if line.length = 0 then .ok st
    else
      match detectToken line with
      | .error e => .error (.wrap (lineMsg n) e)
      | .ok (token, key) =>
        if st.openedToken.isSome ∧ (token = tokenSQL ∨ token = tokenMeta) then
          .error (.wrap
            (lineMsg n ++ gs ": unexpected " ++ token ++ gs " inside " ++
              ((st.openedToken.map ParserToken.ttype).getD []))
            ErrInvalidSyntax)
        else if token = tokenComment then .ok st
        else if token = tokenSQL then
          .ok { st with openedToken := some ⟨tokenSQL, key, []⟩ }
        else if token = tokenMeta then
          if st.metaBuf.isSome then
            .error (.wrap (lineMsg n ++ gs ": unexpected multiple metadata") ErrInvalidSyntax)
          else
            .ok { st with openedToken := some ⟨tokenMeta, [], []⟩ }
        else if token = tokenEnd then
          match st.openedToken with
          | none =>
            .error (.wrap (lineMsg n ++ gs ": unexpected end token") ErrInvalidSyntax)
          | some ot =>
            if ot.ttype = tokenSQL then
              .ok { st with
                      qs := st.qs.registerQuery ot.tkey (goTrimSuffix ot.tcontent lineEnding),
                      openedToken := none }
            else if ot.ttype = tokenMeta then
              .ok { st with metaBuf := some ot.tcontent, openedToken := none }
            else
              .ok { st with openedToken := none }
        else
          match st.openedToken with
          | none => .ok st
          | some ot =>
            .ok { st with openedToken := some { ot with tcontent := ot.tcontent ++ line ++ lineEnding } }

def parseLines (st : PState) : List GoStr → Except GoError PState
  | [] => .ok st
  | l :: rest =>
    match parseStep st l with
    | .error e => .error e
    | .ok st2 => parseLines st2 rest

/-- Metadata decoding: `decode` stands for `json.Unmarshal` into a
`QuerySetMeta` (an external collaborator). No payload keeps the defaults
derived from the source name; a present payload is decoded, a decode failure
is an `ErrInvalidSyntax`, and empty decoded `ID`/`Name` fall back to the
default while `Description` is always taken from the decoded object. -/
def parseMeta (decode : GoStr → Except GoStr QuerySetMeta) (setID : GoStr)
    (jsonData : Option GoStr) : Except GoError QuerySetMeta :=
  let meta : QuerySetMeta := { ID := setID, Name := setID, Description := [] }
  match jsonData with
  | none => .ok meta
  | some data =>
    match decode data with
    | .error emsg => .error (.wrap emsg ErrInvalidSyntax)
    | .ok parsed =>
      let m1 := if parsed.ID ≠ [] then { meta with ID := parsed.ID } else meta
      let m2 := if parsed.Name ≠ [] then { m1 with Name := parsed.Name } else m1
      .ok { m2 with Description := parsed.Description }

/-- Whole-source parser: run the scanner loop over the lines, reject a still
open block at end of input, then decode the stashed metadata payload. -/
def parse (decode : GoStr → Except GoStr QuerySetMeta) (setID : GoStr)
    (lines : List GoStr) : Except GoError QuerySet :=
  match parseLines {} lines with
  | .error e => .error e
  | .ok st =>
    match st.openedToken with
    | some ot =>
      .error (.wrap (gs "no closing tag found for " ++ ot.ttype ++ tokenKeySep ++ ot.tkey)
        ErrInvalidSyntax)
    | none =>
      match parseMeta decode setID st.metaBuf with
      | .error e => .error (.wrap (gs "parse meta: ") e)
      | .ok meta => .ok { st.qs with meta := meta }

/-- Statement lookup inside a parsed collection (specification-side helper). -/
def lookupQ (qs : QuerySet) (id : GoStr) : Option GoStr :=
  match qs.queries with
  | none => none
  | some l => lookupA l id

/-- Contribution of one raw source line to the body of the block that is open
while it is read: blank lines and directive/comment lines contribute nothing,
a content line contributes its trimmed text plus the line terminator. -/
def lineContrib (rawLine : GoStr) : GoStr :=
  let line := goTrimSpace rawLine
  if line.length = 0 then []
  else
    match detectToken line with
    | .ok ([], _) => line ++ lineEnding
    | _ => []

def bodyAccum : List GoStr → GoStr
  | [] => []
  | l :: t => lineContrib l ++ bodyAccum t

/-- Invariant used for framing: the parser state holds no open statement
block keyed by `id`. -/
def stOKfor (id : GoStr) (st : PState) : Prop :=
  ∀ ot, st.openedToken = some ot → ¬(ot.ttype = tokenSQL ∧ ot.tkey = id)

/-- A raw line that reads as statement-body material: short enough for the
scanner and, after trimming, blank, plain content, or a plain comment. -/
def contentish (l : GoStr) : Prop :=
  l.length < maxCapacity ∧
  (goTrimSpace l = [] ∨ detectToken (goTrimSpace l) = .ok ([], [])
    ∨ detectToken (goTrimSpace l) = .ok (tokenComment, []))

instance contentishDecidable (l : GoStr) : Decidable (contentish l) :=
  inferInstanceAs (Decidable (l.length < maxCapacity ∧
    (goTrimSpace l = [] ∨ detectToken (goTrimSpace l) = .ok ([], [])
      ∨ detectToken (goTrimSpace l) = .ok (tokenComment, []))))

/-- Decoder that rejects every payload (used where no metadata block occurs,
so the decoder is never consulted). -/
def jsonDec0 : GoStr → Except GoStr QuerySetMeta := fun _ => .error []

/-- Decoder returning a fixed object with empty `id` (used as a concrete
witness input for the metadata fallback rules). -/
def jsonDecSample : GoStr → Except GoStr QuerySetMeta := fun _ => .ok ⟨[], gs "N", gs "D"⟩

def qsA : QuerySet := { meta := ⟨gs "a", gs "a", []⟩, queries := some [(gs "q", gs "SELECT 1;")] }

def qsEmptyColl : QuerySet := { meta := ⟨gs "s", gs "s", []⟩, queries := none }

def qsSort : QuerySet :=
  { meta := ⟨gs "a", gs "a", []⟩, queries := some [(gs "q2", gs "B"), (gs "q1", gs "A")] }

/-- Registry with a nil collection map (`SQLSet{}`). -/
def regNil : SQLSet := {}

def regOne : SQLSet := { sets := some [(gs "a", qsA)] }

def regTwo : SQLSet := { sets := some [(gs "a", qsA), (gs "b", qsA)] }

/-- Registry holding one collection that has no statements (as produced by
parsing a source with no statement blocks). -/
def regEmptyColl : SQLSet := { sets := some [(gs "s", qsEmptyColl)] }

def regSort : SQLSet := { sets := some [(gs "a", qsSort)] }

/-- C1: Single-identifier `Get` on a registry with zero collections fails with
the Empty kind and with exactly one collection resolves against that sole
collection, as the claim states; but on a registry with two collections the
code returns the bare error `query set not specified` built without wrapping
`ErrRequiredArgMissing`, so the failure is NOT of the RequiredArgMissing kind,
contradicting the claim and the repository's own test
(`sqlset_test.go`, case `get with queryID from multiple sets`). -/
theorem c1_code_divergence :
    regTwo.Get [gs "q"] = .error (.new (gs "query set not specified"))
  ∧ errorIs (.new (gs "query set not specified")) ErrRequiredArgMissing = false
  ∧ regNil.Get [gs "q"] = .error ErrQuerySetsEmpty
  ∧ errorIs ErrQuerySetsEmpty ErrEmpty = true
  ∧ regOne.Get [gs "q"] = qsA.findQuery (gs "q")
  ∧ regOne.Get [gs "q"] = .ok (gs "SELECT 1;") := by decide

/-- C2: `Get` does validate emptiness first and then the argument count, with
the positional index and the count in the message; but both failures are bare
`fmt.Errorf` errors that do not wrap `ErrArgumentEmpty` respectively
`ErrInvalidArgCount`, so neither is distinguishable by kind, contradicting the
claim and the repository's own test (`sqlset_test.go`, cases
`get with empty argument`, `get with no arguments`, `get with too many
arguments`). -/
theorem c2_code_divergence :
    regOne.Get [[]] = .error (.new (gs "empty argument: 0"))
  ∧ errorIs (.new (gs "empty argument: 0")) ErrArgumentEmpty = false
  ∧ errorIs (.new (gs "empty argument: 0")) ErrEmpty = false
  ∧ regOne.Get [gs "a", [], []] = .error (.new (gs "empty argument: 1"))
  ∧ regOne.Get [] = .error (.new (gs "invalid number of arguments: 0"))
  ∧ regOne.Get [gs "a", gs "b", gs "c"] = .error (.new (gs "invalid number of arguments: 3"))
  ∧ errorIs (.new (gs "invalid number of arguments: 0")) ErrInvalidArgCount = false
  ∧ errorIs (.new (gs "invalid number of arguments: 3")) ErrInvalidArgCount = false := by decide

/-- C5 counterexample: for the dot-free pair `set = ""`, `query = ""` the two
call forms are NOT equivalent: `Get(".")` passes the emptiness check and fails
inside resolution (here with `ErrQuerySetsEmpty`), while `Get("", "")` fails
the emptiness check with the `empty argument: 0` error. -/
theorem c5_counterexample :
    regNil.Get [gs "."] = .error ErrQuerySetsEmpty
  ∧ regNil.Get [[], []] = .error (.new (gs "empty argument: 0"))
  ∧ (Except.error ErrQuerySetsEmpty : Except GoError GoStr)
      ≠ .error (.new (gs "empty argument: 0")) := by decide

/-- C4 counterexample: a statement body line with surrounding whitespace is
committed trimmed, so the committed text is not the verbatim text between the
delimiters and whitespace inside the body IS removed. -/
theorem c4_counterexample :
    parse jsonDec0 (gs "s") [gs "--SQL:q", gs "  SELECT 1;  ", gs "--end"] =
      .ok { meta := ⟨gs "s", gs "s", []⟩, queries := some [(gs "q", gs "SELECT 1;")] }
  ∧ gs "SELECT 1;" ≠ gs "  SELECT 1;  " := by decide

lemma goCutChar_append (a b : GoStr) (ha : '.' ∉ a) :
    goCutChar (a ++ '.' :: b) '.' = (a, b, true) := by
  induction a with
  | nil => simp [goCutChar]
  | cons c t ih =>
    have hc : c ≠ '.' := fun h => ha (h ▸ List.mem_cons_self c t)
    have ht : '.' ∉ t := fun h => ha (List.mem_cons_of_mem c h)
    simp [goCutChar, hc, ih ht]

/-- C5 amended: for all NON-EMPTY identifiers `a`, `b` that contain no
separator character, the single-identifier call `Get(a ++ "." ++ b)` and the
two-identifier call `Get(a, b)` agree on every registry. -/
theorem c5_amended_equivalence (s : SQLSet) (a b : GoStr)
    (ha : a ≠ []) (hb : b ≠ []) (hda : '.' ∉ a) (hdb : '.' ∉ b) :
    s.Get [a ++ '.' :: b] = s.Get [a, b] := by
  have hne : a ++ '.' :: b ≠ [] := by cases a <;> simp
  unfold SQLSet.Get
  simp [findEmptyArg, hne, ha, hb, goCutChar_append a b hda]

theorem c5_amended_equivalence_witness :
    regOne.Get [gs "a" ++ '.' :: gs "q"] = regOne.Get [gs "a", gs "q"] :=
  c5_amended_equivalence regOne (gs "a") (gs "q")
    (by decide) (by decide) (by decide) (by decide)

/-- C3 counterexample: on a registry whose collection `s` exists but holds no
statements, the two-identifier lookup `Get("s", "q")` fails with the
query-set-EMPTY kind, which is none of the claimed "not found" kinds, so
collection-miss / statement-miss are not the only failure outcomes. -/
theorem c3_counterexample :
    regEmptyColl.Get [gs "s", gs "q"] = .error (.wrap (gs "s") ErrQuerySetEmpty)
  ∧ errorIs (.wrap (gs "s") ErrQuerySetEmpty) ErrQuerySetNotFound = false
  ∧ errorIs (.wrap (gs "s") ErrQuerySetEmpty) ErrQueryNotFound = false
  ∧ errorIs (.wrap (gs "s") ErrQuerySetEmpty) ErrNotFound = false
  ∧ errorIs (.wrap (gs "s") ErrQuerySetEmpty) ErrEmpty = true := by decide

/-- C3 amended: for every registry and two-identifier call with both
identifiers non-empty, the outcomes are exactly: registry with a nil
collection map fails with the Empty kind (`ErrQuerySetsEmpty`); a missing
collection fails with the collection-not-found kind; an existing collection
with NO statements fails with the query-set-empty (Empty) kind; an existing
collection that has statements but not the requested one fails with the
statement-not-found kind; otherwise the statement text is returned. The two
not-found kinds remain distinguishable. -/
theorem c3_amended_lookup_outcomes (s : SQLSet) (a b : GoStr)
    (ha : a ≠ []) (hb : b ≠ []) :
    (s.sets = none → s.Get [a, b] = .error ErrQuerySetsEmpty)
  ∧ (∀ sets, s.sets = some sets → lookupA sets a = none →
      s.Get [a, b] = .error (.wrap a ErrQuerySetNotFound))
  ∧ (∀ sets qs, s.sets = some sets → lookupA sets a = some qs → qs.queries = none →
      s.Get [a, b] = .error (.wrap qs.meta.ID ErrQuerySetEmpty))
  ∧ (∀ sets qs l, s.sets = some sets → lookupA sets a = some qs → qs.queries = some l →
      lookupA l b = none → s.Get [a, b] = .error (.wrap b ErrQueryNotFound))
  ∧ (∀ sets qs l q, s.sets = some sets → lookupA sets a = some qs → qs.queries = some l →
      lookupA l b = some q → s.Get [a, b] = .ok q)
  ∧ errorIs (.wrap a ErrQuerySetNotFound) ErrNotFound = true
  ∧ errorIs (.wrap b ErrQueryNotFound) ErrNotFound = true
  ∧ errorIs (.wrap a ErrQuerySetNotFound) ErrQueryNotFound = false
  ∧ errorIs (.wrap b ErrQueryNotFound) ErrQuerySetNotFound = false := by
  have hget : s.Get [a, b] = s.findQuery [a, b] := by
    unfold SQLSet.Get
    simp [findEmptyArg, ha, hb]
  refine ⟨?_, ?_, ?_, ?_, ?_, ?_, ?_, ?_, ?_⟩
  · intro hs
    rw [hget]
    unfold SQLSet.findQuery
    rw [hs]
  · intro sets hs hl
    rw [hget]
    unfold SQLSet.findQuery
    rw [hs]
    simp [hl]
  · intro sets qs hs hl hq
    rw [hget]
    unfold SQLSet.findQuery
    rw [hs]
    simp [hl, QuerySet.findQuery, hq]
  · intro sets qs l hs hl hq hlb
    rw [hget]
    unfold SQLSet.findQuery
    rw [hs]
    simp [hl, QuerySet.findQuery, hq, hlb]
  · intro sets qs l q hs hl hq hlb
    rw [hget]
    unfold SQLSet.findQuery
    rw [hs]
    simp [hl, QuerySet.findQuery, hq, hlb]
  · simp [errorIs, ErrQuerySetNotFound, ErrNotFound]
  · simp [errorIs, ErrQueryNotFound, ErrNotFound]
  · simp [errorIs, ErrQuerySetNotFound, ErrQueryNotFound, ErrNotFound, gs]
  · simp [errorIs, ErrQueryNotFound, ErrQuerySetNotFound, ErrNotFound, gs]

theorem c3_amended_lookup_outcomes_witness :
    regOne.Get [gs "zz", gs "q"] = .error (.wrap (gs "zz") ErrQuerySetNotFound) :=
  (c3_amended_lookup_outcomes regOne (gs "zz") (gs "q") (by decide) (by decide)).2.1
    [(gs "a", qsA)] rfl (by decide)

/-- C8: metadata decoding. With no payload the record is
`{ID = d, Name = d, Description = ""}`; a payload whose decode fails yields an
error of the InvalidSyntax kind (no distinct kind); a decoded object falls
back to the default `d` for an absent/empty `id` or `name`, and `Description`
is always the decoded description (never inheriting ID or Name). -/
theorem c8_parse_meta (decode : GoStr → Except GoStr QuerySetMeta) (d : GoStr) :
    parseMeta decode d none = .ok ⟨d, d, []⟩
  ∧ (∀ data msg, decode data = .error msg →
      parseMeta decode d (some data) = .error (.wrap msg ErrInvalidSyntax)
      ∧ errorIs (.wrap msg ErrInvalidSyntax) ErrInvalidSyntax = true)
  ∧ (∀ data parsed, decode data = .ok parsed →
      parseMeta decode d (some data) =
        .ok ⟨if parsed.ID = [] then d else parsed.ID,
             if parsed.Name = [] then d else parsed.Name,
             parsed.Description⟩) := by
  refine ⟨rfl, ?_, ?_⟩
  · intro data msg hdec
    constructor
    · simp only [parseMeta]
      rw [hdec]
    · simp [errorIs, ErrInvalidSyntax]
  · intro data parsed hdec
    simp only [parseMeta]
    rw [hdec]
    by_cases hid : parsed.ID = [] <;> by_cases hname : parsed.Name = [] <;>
      simp [hid, hname]

theorem c8_parse_meta_witness :
    parseMeta jsonDecSample (gs "d") (some (gs "x")) = .ok ⟨gs "d", gs "N", gs "D"⟩
  ∧ parseMeta jsonDecSample (gs "d") none = .ok ⟨gs "d", gs "d", []⟩ := by
  have h := c8_parse_meta jsonDecSample (gs "d")
  refine ⟨?_, h.1⟩
  have h2 := h.2.2 (gs "x") ⟨[], gs "N", gs "D"⟩ rfl
  simpa using h2

/-- C9: listing the statement identifiers of a named collection. An unknown
collection (nil registry map or missing key) fails with the not-found kind
returning a nil slice; a known collection with a nil statement map returns the
empty NON-nil slice; a known populated collection returns exactly its
statement keys, strictly ascending (sorted, no duplicates). -/
theorem c9_get_query_ids (s : SQLSet) (setID : GoStr) :
    (s.sets = none →
      s.GetQueryIDs setID = (none, some (.wrap setID ErrQuerySetNotFound))
      ∧ errorIs (.wrap setID ErrQuerySetNotFound) ErrNotFound = true)
  ∧ (∀ sets, s.sets = some sets → lookupA sets setID = none →
      s.GetQueryIDs setID = (none, some (.wrap setID ErrQuerySetNotFound)))
  ∧ (∀ sets qs, s.sets = some sets → lookupA sets setID = some qs → qs.queries = none →
      s.GetQueryIDs setID = (some [], none))
  ∧ (∀ sets qs l, s.sets = some sets → lookupA sets setID = some qs → qs.queries = some l →
      (l.map Prod.fst).Nodup →
      ∃ ids, s.GetQueryIDs setID = (some ids, none)
        ∧ ids.Perm (l.map Prod.fst)
        ∧ List.Pairwise (fun x y => x < y) ids) := by
  refine ⟨?_, ?_, ?_, ?_⟩
  · intro hs
    constructor
    · unfold SQLSet.GetQueryIDs
      rw [hs]
    · simp [errorIs, ErrQuerySetNotFound, ErrNotFound]
  · intro sets hs hl
    unfold SQLSet.GetQueryIDs
    rw [hs]
    simp [hl]
  · intro sets qs hs hl hq
    unfold SQLSet.GetQueryIDs
    rw [hs]
    simp [hl, hq]
  · intro sets qs l hs hl hq hnd
    refine ⟨sortStrings (l.map Prod.fst), ?_, List.perm_insertionSort _ _, ?_⟩
    · unfold SQLSet.GetQueryIDs
      rw [hs]
      simp [hl, hq]
    · have hsorted : List.Pairwise (fun x y => x ≤ y) (sortStrings (l.map Prod.fst)) :=
        List.sorted_insertionSort _ _
      have hnodup : (sortStrings (l.map Prod.fst)).Nodup :=
        ((List.perm_insertionSort _ _).nodup_iff).2 hnd
      exact (hsorted.and hnodup).imp (fun h => lt_of_le_of_ne h.1 h.2)

theorem c9_get_query_ids_witness :
    ∃ ids, regSort.GetQueryIDs (gs "a") = (some ids, none)
      ∧ ids.Perm [gs "q2", gs "q1"]
      ∧ List.Pairwise (fun x y => x < y) ids :=
  (c9_get_query_ids regSort (gs "a")).2.2.2
    [(gs "a", qsSort)] qsSort [(gs "q2", gs "B"), (gs "q1", gs "A")]
    rfl (by decide) rfl (by decide)

lemma parseLines_append (st : PState) (xs ys : List GoStr) :
    parseLines st (xs ++ ys) =
      match parseLines st xs with
      | .error e => .error e
      | .ok st2 => parseLines st2 ys := by
  induction xs generalizing st with
  | nil => simp [parseLines]
  | cons l t ih =>
    simp only [List.cons_append, parseLines]
    cases parseStep st l with
    | error e => rfl
    | ok st2 => exact ih st2

lemma lookupA_updateA_ne {β : Type} (l : List (GoStr × β)) (k id : GoStr) (v : β)
    (h : k ≠ id) : lookupA (updateA l k v) id = lookupA l id := by
  induction l with
  | nil => simp [updateA, lookupA, h]
  | cons p t ih =>
    by_cases hk : p.1 = k
    · simp [updateA, hk, lookupA, h]
    · simp [updateA, hk, lookupA, ih]

lemma lookupA_updateA_eq {β : Type} (l : List (GoStr × β)) (k : GoStr) (v : β) :
    lookupA (updateA l k v) k = some v := by
  induction l with
  | nil => simp [updateA, lookupA]
  | cons p t ih =>
    by_cases hk : p.1 = k
    · simp [updateA, hk, lookupA]
    · simp [updateA, hk, lookupA, ih]

lemma lookupQ_registerQuery_ne (qs : QuerySet) (k id q : GoStr) (h : k ≠ id) :
    lookupQ (qs.registerQuery k q) id = lookupQ qs id := by
  cases hq : qs.queries with
  | none => simp [QuerySet.registerQuery, hq, lookupQ, lookupA, h]
  | some l => simp [QuerySet.registerQuery, hq, lookupQ, lookupA_updateA_ne l k id q h]

lemma lookupQ_registerQuery_eq (qs : QuerySet) (k q : GoStr) :
    lookupQ (qs.registerQuery k q) k = some q := by
  cases hq : qs.queries with
  | none => simp [QuerySet.registerQuery, hq, lookupQ, lookupA]
  | some l => simp [QuerySet.registerQuery, hq, lookupQ, lookupA_updateA_eq]

lemma frame_step (id : GoStr) (st st' : PState) (l : GoStr)
    (hstep : parseStep st l = .ok st')
    (hl : detectToken (goTrimSpace l) ≠ .ok (tokenSQL, id))
    (hinv : stOKfor id st) :
    lookupQ st'.qs id = lookupQ st.qs id ∧ stOKfor id st' := by
  unfold parseStep at hstep
  split at hstep
  · exact absurd hstep (by simp)
  · simp only [] at hstep
    split at hstep
    · cases hstep
      exact ⟨rfl, hinv⟩
    · split at hstep
      · exact absurd hstep (by simp)
      · rename_i token key hdet
        split at hstep
        · exact absurd hstep (by simp)
        · split at hstep
          · cases hstep
            exact ⟨rfl, hinv⟩
          · split at hstep
            · -- token = tokenSQL : opens a new statement block
              rename_i hsql
              cases hstep
              refine ⟨rfl, ?_⟩
              intro ot hot
              cases hot
              intro hc
              have hk : key = id := hc.2
              exact hl (by rw [hdet, hsql, hk])
            · split at hstep
              · -- token = tokenMeta
                split at hstep
                · exact absurd hstep (by simp)
                · cases hstep
                  refine ⟨rfl, ?_⟩
                  intro ot hot
                  cases hot
                  intro hc
                  exact absurd hc.1 (by decide)
              · split at hstep
                · -- token = tokenEnd
                  split at hstep
                  · exact absurd hstep (by simp)
                  · rename_i ot hot
                    split at hstep
                    · -- close of a statement block: registers ot.tkey
                      rename_i hty
                      cases hstep
                      refine ⟨?_, ?_⟩
                      · have hne : ot.tkey ≠ id := fun h => hinv ot hot ⟨hty, h⟩
                        exact lookupQ_registerQuery_ne _ _ _ _ hne
                      · intro ot2 hot2
                        cases hot2
                    · split at hstep
                      · cases hstep
                        refine ⟨rfl, ?_⟩
                        intro ot2 hot2
                        cases hot2
                      · cases hstep
                        refine ⟨rfl, ?_⟩
                        intro ot2 hot2
                        cases hot2
                · -- content line
                  split at hstep
                  · cases hstep
                    exact ⟨rfl, hinv⟩
                  · rename_i ot hot
                    cases hstep
                    refine ⟨rfl, ?_⟩
                    intro ot2 hot2
                    cases hot2
                    intro hc
                    exact hinv ot hot ⟨hc.1, hc.2⟩

lemma frame_lines (id : GoStr) : ∀ (lines : List GoStr) (st st' : PState),
    parseLines st lines = .ok st' →
    (∀ l ∈ lines, detectToken (goTrimSpace l) ≠ .ok (tokenSQL, id)) →
    stOKfor id st →
    lookupQ st'.qs id = lookupQ st.qs id ∧ stOKfor id st' := by
  intro lines
  induction lines with
  | nil =>
    intro st st' h hno hinv
    simp [parseLines] at h
    exact h ▸ ⟨rfl, hinv⟩
  | cons l t ih =>
    intro st st' h hno hinv
    simp only [parseLines] at h
    cases hstep : parseStep st l with
    | error e => rw [hstep] at h; exact absurd h (by simp)
    | ok st2 =>
      rw [hstep] at h
      have h1 := frame_step id st st2 l hstep (hno l (List.mem_cons_self l t)) hinv
      have h2 := ih st2 st' h (fun x hx => hno x (List.mem_cons_of_mem l hx)) h1.2
      exact ⟨h2.1.trans h1.1, h2.2⟩

lemma errorIs_self (t : GoError) : errorIs t t = true := by
  cases t <;> simp [errorIs]

lemma errorIs_wrap_of (m : GoStr) (inner t : GoError) (h : errorIs inner t = true) :
    errorIs (.wrap m inner) t = true := by
  unfold errorIs
  rw [h, Bool.or_true]

lemma detect_tok_ne_nil {tok key : GoStr} (l : GoStr)
    (hdet : detectToken (goTrimSpace l) = .ok (tok, key)) (hne : tok ≠ []) :
    goTrimSpace l ≠ [] := by
  intro h
  rw [h] at hdet
  have h0 : detectToken [] = .ok ([], []) := by decide
  have h2 := h0.symm.trans hdet
  simp at h2
  exact hne h2.1

lemma parseStep_blank (st : PState) (l : GoStr) (hlen : l.length < maxCapacity)
    (ht : goTrimSpace l = []) :
    parseStep st l = .ok { st with lineN := st.lineN + 1 } := by
  unfold parseStep
  rw [if_neg (Nat.not_le.mpr hlen)]
  simp [ht]

lemma parseStep_content (st : PState) (ot : ParserToken) (l : GoStr)
    (hlen : l.length < maxCapacity) (hot : st.openedToken = some ot)
    (hdet : detectToken (goTrimSpace l) = .ok ([], []))
    (hne : goTrimSpace l ≠ []) :
    parseStep st l =
      .ok { st with
              lineN := st.lineN + 1,
              openedToken := some ⟨ot.ttype, ot.tkey, ot.tcontent ++ goTrimSpace l ++ lineEnding⟩ } := by
  have hlz : ¬(List.length (goTrimSpace l) = 0) := fun h => hne (List.length_eq_zero.mp h)
  unfold parseStep
  rw [if_neg (Nat.not_le.mpr hlen)]
  simp only []
  rw [if_neg hlz, hdet]
  have d1 : ¬(([] : GoStr) = tokenSQL) := by decide
  have d2 : ¬(([] : GoStr) = tokenMeta) := by decide
  have d3 : ¬(([] : GoStr) = tokenComment) := by decide
  have d4 : ¬(([] : GoStr) = tokenEnd) := by decide
  simp [d1, d2, d3, d4, hot]

lemma parseStep_comment (st : PState) (l : GoStr)
    (hlen : l.length < maxCapacity)
    (hdet : detectToken (goTrimSpace l) = .ok (tokenComment, [])) :
    parseStep st l = .ok { st with lineN := st.lineN + 1 } := by
  have hne : goTrimSpace l ≠ [] := detect_tok_ne_nil l hdet (by decide)
  have hlz : ¬(List.length (goTrimSpace l) = 0) := fun h => hne (List.length_eq_zero.mp h)
  unfold parseStep
  rw [if_neg (Nat.not_le.mpr hlen)]
  simp only []
  rw [if_neg hlz, hdet]
  have d1 : ¬(tokenComment = tokenSQL) := by decide
  have d2 : ¬(tokenComment = tokenMeta) := by decide
  simp [d1, d2]

lemma parseStep_open_sql (st : PState) (l key : GoStr)
    (hlen : l.length < maxCapacity)
    (hdet : detectToken (goTrimSpace l) = .ok (tokenSQL, key))
    (hnone : st.openedToken = none) :
    parseStep st l =
      .ok { st with
              lineN := st.lineN + 1,
              openedToken := some ⟨tokenSQL, key, []⟩ } := by
  have hne : goTrimSpace l ≠ [] := detect_tok_ne_nil l hdet (by decide)
  have hlz : ¬(List.length (goTrimSpace l) = 0) := fun h => hne (List.length_eq_zero.mp h)
  unfold parseStep
  rw [if_neg (Nat.not_le.mpr hlen)]
  simp only []
  rw [if_neg hlz, hdet, hnone]
  have d1 : ¬(tokenSQL = tokenComment) := by decide
  simp [d1]

lemma parseStep_open_blocked (st : PState) (l tok key : GoStr)
    (hlen : l.length < maxCapacity)
    (hdet : detectToken (goTrimSpace l) = .ok (tok, key))
    (htok : tok = tokenSQL ∨ tok = tokenMeta)
    (hsome : st.openedToken.isSome = true) :
    ∃ e, parseStep st l = .error e ∧ errorIs e ErrInvalidSyntax = true := by
  have hne : goTrimSpace l ≠ [] := by
    refine detect_tok_ne_nil l hdet ?_
    rcases htok with h | h <;> rw [h] <;> decide
  have hlz : ¬(List.length (goTrimSpace l) = 0) := fun h => hne (List.length_eq_zero.mp h)
  have heq : parseStep st l =
      .error (.wrap
        (lineMsg (st.lineN + 1) ++ gs ": unexpected " ++ tok ++ gs " inside " ++
          ((st.openedToken.map ParserToken.ttype).getD []))
        ErrInvalidSyntax) := by
    unfold parseStep
    rw [if_neg (Nat.not_le.mpr hlen)]
    simp only []
    rw [if_neg hlz, hdet]
    rcases htok with h | h <;> subst h <;> simp [hsome]
  exact ⟨_, heq, errorIs_wrap_of _ _ _ (errorIs_self _)⟩

lemma parseStep_end_none (st : PState) (l : GoStr)
    (hlen : l.length < maxCapacity)
    (hdet : detectToken (goTrimSpace l) = .ok (tokenEnd, []))
    (hnone : st.openedToken = none) :
    ∃ e, parseStep st l = .error e ∧ errorIs e ErrInvalidSyntax = true := by
  have hne : goTrimSpace l ≠ [] := detect_tok_ne_nil l hdet (by decide)
  have hlz : ¬(List.length (goTrimSpace l) = 0) := fun h => hne (List.length_eq_zero.mp h)
  have heq : parseStep st l =
      .error (.wrap (lineMsg (st.lineN + 1) ++ gs ": unexpected end token") ErrInvalidSyntax) := by
    unfold parseStep
    rw [if_neg (Nat.not_le.mpr hlen)]
    simp only []
    rw [if_neg hlz, hdet, hnone]
    have d1 : ¬(tokenEnd = tokenSQL) := by decide
    have d2 : ¬(tokenEnd = tokenMeta) := by decide
    have d3 : ¬(tokenEnd = tokenComment) := by decide
    simp [d1, d2, d3]
  exact ⟨_, heq, errorIs_wrap_of _ _ _ (errorIs_self _)⟩

lemma parseStep_end_close_sql (st : PState) (ot : ParserToken) (l : GoStr)
    (hlen : l.length < maxCapacity)
    (hdet : detectToken (goTrimSpace l) = .ok (tokenEnd, []))
    (hot : st.openedToken = some ot) (hty : ot.ttype = tokenSQL) :
    parseStep st l =
      .ok { st with
              lineN := st.lineN + 1,
              openedToken := none,
              qs := st.qs.registerQuery ot.tkey (goTrimSuffix ot.tcontent lineEnding) } := by
  have hne : goTrimSpace l ≠ [] := detect_tok_ne_nil l hdet (by decide)
  have hlz : ¬(List.length (goTrimSpace l) = 0) := fun h => hne (List.length_eq_zero.mp h)
  unfold parseStep
  rw [if_neg (Nat.not_le.mpr hlen)]
  simp only []
  rw [if_neg hlz, hdet, hot]
  have d1 : ¬(tokenEnd = tokenSQL) := by decide
  have d2 : ¬(tokenEnd = tokenMeta) := by decide
  have d3 : ¬(tokenEnd = tokenComment) := by decide
  simp [d1, d2, d3, hty]

lemma lineContrib_blank (l : GoStr) (h : goTrimSpace l = []) : lineContrib l = [] := by
  simp [lineContrib, h]

lemma lineContrib_content (l : GoStr) (hne : goTrimSpace l ≠ [])
    (hdet : detectToken (goTrimSpace l) = .ok ([], [])) :
    lineContrib l = goTrimSpace l ++ lineEnding := by
  have hlz : ¬(List.length (goTrimSpace l) = 0) := fun h => hne (List.length_eq_zero.mp h)
  unfold lineContrib
  rw [if_neg hlz, hdet]

lemma lineContrib_comment (l : GoStr)
    (hdet : detectToken (goTrimSpace l) = .ok (tokenComment, [])) :
    lineContrib l = [] := by
  have hne : goTrimSpace l ≠ [] := detect_tok_ne_nil l hdet (by decide)
  have hlz : ¬(List.length (goTrimSpace l) = 0) := fun h => hne (List.length_eq_zero.mp h)
  unfold lineContrib
  rw [if_neg hlz, hdet]
  rfl

lemma parseLines_body (rest : List GoStr) :
    ∀ (body : List GoStr) (ty k c : GoStr) (mb : Option GoStr) (q0 : QuerySet) (n : Nat),
    (∀ l ∈ body, contentish l) →
    parseLines ⟨some ⟨ty, k, c⟩, mb, q0, n⟩ (body ++ rest) =
      parseLines ⟨some ⟨ty, k, c ++ bodyAccum body⟩, mb, q0, n + body.length⟩ rest := by
  intro body
  induction body with
  | nil =>
    intro ty k c mb q0 n h
    simp [bodyAccum]
  | cons l t ih =>
    intro ty k c mb q0 n h
    obtain ⟨hlen, hcase⟩ := h l (List.mem_cons_self l t)
    have hrest := fun x hx => h x (List.mem_cons_of_mem l hx)
    simp only [List.cons_append, parseLines]
    by_cases hbl : goTrimSpace l = []
    · rw [parseStep_blank ⟨some ⟨ty, k, c⟩, mb, q0, n⟩ l hlen hbl]
      have hih := ih ty k c mb q0 (n + 1) hrest
      simp only [List.append_eq] at hih ⊢
      rw [hih]
      have hstate : (⟨some ⟨ty, k, c ++ bodyAccum t⟩, mb, q0, n + 1 + t.length⟩ : PState) =
          ⟨some ⟨ty, k, c ++ bodyAccum (l :: t)⟩, mb, q0, n + (l :: t).length⟩ := by
        simp [bodyAccum, lineContrib_blank l hbl]
        omega
      rw [hstate]
    · rcases hcase with h0 | hdet | hdet
      · exact absurd h0 hbl
      · rw [parseStep_content ⟨some ⟨ty, k, c⟩, mb, q0, n⟩ ⟨ty, k, c⟩ l hlen rfl hdet hbl]
        have hih := ih ty k (c ++ goTrimSpace l ++ lineEnding) mb q0 (n + 1) hrest
        simp only [List.append_eq] at hih ⊢
        rw [hih]
        have hstate : (⟨some ⟨ty, k, c ++ goTrimSpace l ++ lineEnding ++ bodyAccum t⟩,
            mb, q0, n + 1 + t.length⟩ : PState) =
            ⟨some ⟨ty, k, c ++ bodyAccum (l :: t)⟩, mb, q0, n + (l :: t).length⟩ := by
          simp [bodyAccum, lineContrib_content l hbl hdet, List.append_assoc]
          omega
        rw [hstate]
      · rw [parseStep_comment ⟨some ⟨ty, k, c⟩, mb, q0, n⟩ l hlen hdet]
        have hih := ih ty k c mb q0 (n + 1) hrest
        simp only [List.append_eq] at hih ⊢
        rw [hih]
        have hstate : (⟨some ⟨ty, k, c ++ bodyAccum t⟩, mb, q0, n + 1 + t.length⟩ : PState) =
            ⟨some ⟨ty, k, c ++ bodyAccum (l :: t)⟩, mb, q0, n + (l :: t).length⟩ := by
          simp [bodyAccum, lineContrib_comment l hdet]
          omega
        rw [hstate]

lemma errorIs_wrap_new_ne (m : GoStr) (inner : GoError) (msg : GoStr)
    (h : errorIs inner (.new msg) = false) :
    errorIs (.wrap m inner) (.new msg) = false := by
  unfold errorIs
  rw [h]
  simp

/-- C6: a statement-open or metadata-open directive while any block is open
makes the parser step fail with the InvalidSyntax kind, whatever the two
directive types involved; a close directive with no block open fails with the
InvalidSyntax kind; end of input with a block still open makes `parse` fail
with the InvalidSyntax kind. -/
theorem c6_invalid_syntax :
    (∀ (st : PState) (l tok key : GoStr),
      st.openedToken.isSome = true →
      l.length < maxCapacity →
      detectToken (goTrimSpace l) = .ok (tok, key) →
      (tok = tokenSQL ∨ tok = tokenMeta) →
      ∃ e, parseStep st l = .error e ∧ errorIs e ErrInvalidSyntax = true)
  ∧ (∀ (st : PState) (l : GoStr),
      st.openedToken = none →
      l.length < maxCapacity →
      detectToken (goTrimSpace l) = .ok (tokenEnd, []) →
      ∃ e, parseStep st l = .error e ∧ errorIs e ErrInvalidSyntax = true)
  ∧ (∀ (decode : GoStr → Except GoStr QuerySetMeta) (sid : GoStr)
      (lines : List GoStr) (st : PState),
      parseLines {} lines = .ok st →
      st.openedToken.isSome = true →
      ∃ e, parse decode sid lines = .error e ∧ errorIs e ErrInvalidSyntax = true) := by
  refine ⟨?_, ?_, ?_⟩
  · intro st l tok key hsome hlen hdet htok
    exact parseStep_open_blocked st l tok key hlen hdet htok hsome
  · intro st l hnone hlen hdet
    exact parseStep_end_none st l hlen hdet hnone
  · intro decode sid lines st hok hsome
    obtain ⟨ot, hot⟩ := Option.isSome_iff_exists.mp hsome
    have heq : parse decode sid lines =
        .error (.wrap (gs "no closing tag found for " ++ ot.ttype ++ tokenKeySep ++ ot.tkey)
          ErrInvalidSyntax) := by
      unfold parse
      rw [hok]
      simp [hot]
    exact ⟨_, heq, errorIs_wrap_of _ _ _ (errorIs_self _)⟩

theorem c6_invalid_syntax_witness :
    (∃ e, parseStep ⟨some ⟨tokenSQL, gs "k", []⟩, none, {}, 0⟩ (gs "--SQL:x") = .error e
      ∧ errorIs e ErrInvalidSyntax = true)
  ∧ (∃ e, parseStep ({} : PState) (gs "--end") = .error e ∧ errorIs e ErrInvalidSyntax = true)
  ∧ (∃ e, parse jsonDec0 (gs "s") [gs "--SQL:q"] = .error e
      ∧ errorIs e ErrInvalidSyntax = true) := by
  refine ⟨?_, ?_, ?_⟩
  · exact c6_invalid_syntax.1 ⟨some ⟨tokenSQL, gs "k", []⟩, none, {}, 0⟩ (gs "--SQL:x")
      tokenSQL (gs "x") rfl (by decide) (by decide) (Or.inl rfl)
  · exact c6_invalid_syntax.2.1 {} (gs "--end") rfl (by decide) (by decide)
  · exact c6_invalid_syntax.2.2 jsonDec0 (gs "s") [gs "--SQL:q"]
      ⟨some ⟨tokenSQL, gs "q", []⟩, none, {}, 1⟩ (by decide) rfl

/-- C7: any raw line at least as long as the 1024-byte scanner capacity makes
`parse` abort at that line with the LineTooLong kind, distinguishable from
InvalidSyntax, for EVERY suffix after the overlong line (the line is neither
truncated nor merged: the remaining input is never looked at), provided the
prefix before it scanned cleanly. -/
theorem c7_line_too_long (decode : GoStr → Except GoStr QuerySetMeta) (sid : GoStr)
    (pre post : List GoStr) (l : GoStr) (st : PState)
    (hpre : parseLines {} pre = .ok st) (hlong : maxCapacity < l.length) :
    parse decode sid (pre ++ l :: post) =
      .error (.wrap (lineMsg (st.lineN + 1)) ErrMaxLineLenExceeded)
  ∧ errorIs (.wrap (lineMsg (st.lineN + 1)) ErrMaxLineLenExceeded) ErrMaxLineLenExceeded = true
  ∧ errorIs (.wrap (lineMsg (st.lineN + 1)) ErrMaxLineLenExceeded) ErrInvalidSyntax = false := by
  have hstep : parseStep st l = .error (.wrap (lineMsg (st.lineN + 1)) ErrMaxLineLenExceeded) := by
    unfold parseStep
    rw [if_pos (Nat.le_of_lt hlong)]
  have hlines : parseLines {} (pre ++ l :: post) =
      .error (.wrap (lineMsg (st.lineN + 1)) ErrMaxLineLenExceeded) := by
    rw [parseLines_append, hpre]
    simp only [parseLines]
    rw [hstep]
  refine ⟨?_, errorIs_wrap_of _ _ _ (errorIs_self _), ?_⟩
  · unfold parse
    rw [hlines]
  · exact errorIs_wrap_new_ne _ _ _ (by decide)

theorem c7_line_too_long_witness :
    parse jsonDec0 (gs "s") ([] ++ List.replicate 1025 'a' :: [gs "--SQL:q", gs "x", gs "--end"]) =
      .error (.wrap (lineMsg 1) ErrMaxLineLenExceeded) :=
  (c7_line_too_long jsonDec0 (gs "s") [] [gs "--SQL:q", gs "x", gs "--end"]
    (List.replicate 1025 'a') {} rfl
    (by rw [List.length_replicate]; decide)).1

lemma parseLines_append_ok (st st' : PState) (xs ys : List GoStr)
    (h : parseLines st (xs ++ ys) = .ok st') :
    ∃ stm, parseLines st xs = .ok stm ∧ parseLines stm ys = .ok st' := by
  rw [parseLines_append] at h
  cases hx : parseLines st xs with
  | error e => rw [hx] at h; exact absurd h (by simp)
  | ok stm => rw [hx] at h; exact ⟨stm, rfl, h⟩

lemma parse_ok_inv (decode : GoStr → Except GoStr QuerySetMeta) (sid : GoStr)
    (lines : List GoStr) (qs : QuerySet)
    (h : parse decode sid lines = .ok qs) :
    ∃ st meta, parseLines {} lines = .ok st ∧ st.openedToken = none ∧
      parseMeta decode sid st.metaBuf = .ok meta ∧ qs = { st.qs with meta := meta } := by
  unfold parse at h
  split at h
  · exact absurd h (by simp)
  · rename_i st hl
    split at h
    · exact absurd h (by simp)
    · rename_i hot
      split at h
      · exact absurd h (by simp)
      · rename_i meta hm
        simp at h
        exact ⟨st, meta, hl, hot, hm, h.symm⟩

/-- C4 amended: for a statement block whose open directive carries identifier
`id` and whose interior lines all read as body material, the committed text is
the interior lines with blank and comment lines dropped, surrounding
whitespace trimmed from each remaining line, each joined with the line
terminator, and exactly one trailing terminator removed; the delimiter lines
themselves are never part of the body. -/
theorem c4_amended_body_text (decode : GoStr → Except GoStr QuerySetMeta)
    (sid id openL : GoStr) (body : List GoStr)
    (hOpen : detectToken (goTrimSpace openL) = .ok (tokenSQL, id))
    (hOpenLen : openL.length < maxCapacity)
    (hBody : ∀ l ∈ body, contentish l) :
    parse decode sid (openL :: (body ++ [gs "--end"])) =
      .ok { meta := ⟨sid, sid, []⟩,
            queries := some [(id, goTrimSuffix (bodyAccum body) lineEnding)] } := by
  have hstep1 : parseStep {} openL =
      .ok ⟨some ⟨tokenSQL, id, []⟩, none, {}, 1⟩ :=
    parseStep_open_sql {} openL id hOpenLen hOpen rfl
  have hb := parseLines_body [gs "--end"] body tokenSQL id [] none {} 1 hBody
  have hstep2 := parseStep_end_close_sql
    ⟨some ⟨tokenSQL, id, [] ++ bodyAccum body⟩, none, {}, 1 + body.length⟩
    ⟨tokenSQL, id, [] ++ bodyAccum body⟩ (gs "--end")
    (by decide) (by decide) rfl rfl
  unfold parse
  simp only [parseLines]
  rw [hstep1]
  simp only []
  rw [hb]
  simp only [parseLines]
  rw [hstep2]
  simp only [parseLines]
  simp [parseMeta, QuerySet.registerQuery]

theorem c4_amended_body_text_witness :
    parse jsonDec0 (gs "s") (gs "--SQL:q" :: ([gs "  a  ", [], gs "-- note", gs "b"] ++ [gs "--end"])) =
      .ok { meta := ⟨gs "s", gs "s", []⟩,
            queries := some [(gs "q", gs "a\r\nb")] } := by
  have h := c4_amended_body_text jsonDec0 (gs "s") (gs "q") (gs "--SQL:q")
    [gs "  a  ", [], gs "-- note", gs "b"] (by decide) (by decide) (by decide)
  rw [h]
  decide

/-- C10: duplicate statement identifiers within one source are not detected:
whenever a source that parses successfully ends with a properly closed block
for `id` whose interior lines are body material, and no later line opens a
statement block for `id`, the resulting collection maps `id` to the body of
that last block, silently overwriting any earlier block with the same
identifier in the prefix. -/
theorem c10_last_block_wins (decode : GoStr → Except GoStr QuerySetMeta)
    (sid : GoStr) (pre : List GoStr) (openL : GoStr) (body post : List GoStr)
    (id : GoStr) (qs : QuerySet)
    (hOpen : detectToken (goTrimSpace openL) = .ok (tokenSQL, id))
    (hOpenLen : openL.length < maxCapacity)
    (hBody : ∀ l ∈ body, contentish l)
    (hPost : ∀ l ∈ post, detectToken (goTrimSpace l) ≠ .ok (tokenSQL, id))
    (hOK : parse decode sid (pre ++ openL :: (body ++ (gs "--end") :: post)) = .ok qs) :
    lookupQ qs id = some (goTrimSuffix (bodyAccum body) lineEnding) := by
  obtain ⟨stF, meta, hlines, hopenF, hmeta, hqs⟩ := parse_ok_inv decode sid _ qs hOK
  obtain ⟨st1, hpre, h2⟩ := parseLines_append_ok _ _ _ _ hlines
  cases hot1 : st1.openedToken with
  | some ot =>
    obtain ⟨e, hstep, _⟩ := parseStep_open_blocked st1 openL tokenSQL id
      hOpenLen hOpen (Or.inl rfl) (by rw [hot1]; rfl)
    simp only [parseLines] at h2
    rw [hstep] at h2
    exact absurd h2 (by simp)
  | none =>
    have hstep1 := parseStep_open_sql st1 openL id hOpenLen hOpen hot1
    simp only [parseLines] at h2
    rw [hstep1] at h2
    simp only [] at h2
    have hb := parseLines_body ((gs "--end") :: post) body tokenSQL id []
      st1.metaBuf st1.qs (st1.lineN + 1) hBody
    rw [hb] at h2
    simp only [parseLines] at h2
    have hstep2 := parseStep_end_close_sql
      ⟨some ⟨tokenSQL, id, [] ++ bodyAccum body⟩, st1.metaBuf, st1.qs,
        st1.lineN + 1 + body.length⟩
      ⟨tokenSQL, id, [] ++ bodyAccum body⟩ (gs "--end")
      (by decide) (by decide) rfl rfl
    rw [hstep2] at h2
    simp only [] at h2
    have hframe := frame_lines id post _ stF h2 hPost (fun ot hot => by exact absurd hot (by simp))
    have hreg : lookupQ (st1.qs.registerQuery id
        (goTrimSuffix ([] ++ bodyAccum body) lineEnding)) id =
        some (goTrimSuffix ([] ++ bodyAccum body) lineEnding) :=
      lookupQ_registerQuery_eq _ _ _
    have hq1 : lookupQ qs id = lookupQ stF.qs id := by
      rw [hqs]
      rfl
    rw [hq1, hframe.1]
    simpa using hreg

theorem c10_last_block_wins_witness :
    parse jsonDec0 (gs "s")
        ([gs "--SQL:q", gs "a", gs "--end"] ++ gs "--SQL:q" :: ([gs "b"] ++ (gs "--end") :: [])) =
      .ok { meta := ⟨gs "s", gs "s", []⟩, queries := some [(gs "q", gs "b")] }
  ∧ lookupQ { meta := ⟨gs "s", gs "s", []⟩, queries := some [(gs "q", gs "b")] } (gs "q") =
      some (goTrimSuffix (bodyAccum [gs "b"]) lineEnding) := by
  have hp : parse jsonDec0 (gs "s")
      ([gs "--SQL:q", gs "a", gs "--end"] ++ gs "--SQL:q" :: ([gs "b"] ++ (gs "--end") :: [])) =
      .ok { meta := ⟨gs "s", gs "s", []⟩, queries := some [(gs "q", gs "b")] } := by decide
  refine ⟨hp, ?_⟩
  exact c10_last_block_wins jsonDec0 (gs "s") [gs "--SQL:q", gs "a", gs "--end"]
    (gs "--SQL:q") [gs "b"] [] (gs "q") _
    (by decide) (by decide) (by decide) (by decide) hp
